import Mathlib

/-!
Verification of the meal-planner shopping-list module (`tools/shopping_list.py`),
shallowly embedded in Lean.  Python floats are modelled by `ℚ`, Python strings by
`String`, the `self.items` dictionary (insertion-ordered, keyed by tuples) by an
insertion-ordered association list, and Python's `ZeroDivisionError` by an
`Except` error value.
-/

namespace MealPlanner

/-- Python `str.lower()` (ASCII model), as applied to ingredient food names. -/
def pyLower (s : String) : String := String.mk (s.data.map Char.toLower)

/-- Python truthiness-based defaulting `x or default` on an optional string
    field: `None` and the empty string both fall back to the default. -/
def pyOrDefault (x : Option String) (d : String) : String :=
  match x with
  | none => d
  | some s => if s = "" then d else s

/-- Decimal digits to a natural number. -/
def digitsToNat (cs : List Char) : Nat := cs.foldl (fun n c => 10 * n + (c.toNat - 48)) 0

/-- Models Python `float(s)` on the forms the quantity field uses (the source
    stores quantity "as string to handle both integers and decimals"):
    optional surrounding whitespace, an optional sign, then an integer or a
    decimal numeral.  Returns `none` exactly when conversion fails. -/
def pyFloat (s : String) : Option ℚ :=
  let trimmed := ((s.data.dropWhile Char.isWhitespace).reverse.dropWhile Char.isWhitespace).reverse
  let signBody : ℚ × List Char :=
    match trimmed with
    | '-' :: rest => (-1, rest)
    | '+' :: rest => (1, rest)
    | _ => (1, trimmed)
  let ipart := signBody.2.takeWhile Char.isDigit
  let rest := signBody.2.dropWhile Char.isDigit
  match rest with
  | [] => if ipart.isEmpty then none else some (signBody.1 * (digitsToNat ipart : ℚ))
  | '.' :: fpart =>
      if fpart.all Char.isDigit && !(ipart.isEmpty && fpart.isEmpty) then
        some (signBody.1 * ((digitsToNat ipart : ℚ) + (digitsToNat fpart : ℚ) / (10 : ℚ) ^ fpart.length))
      else none
  | _ => none

/-- A quantity value held in the shopping list: a Python float (`ℚ`) or a
    string kept verbatim when numeric conversion failed. -/
inductive Quantity where
  | num (q : ℚ)
  | str (s : String)
deriving DecidableEq

/-- Fractional decimal digits of `r` (`0 ≤ r < 1`), up to `n` digits. -/
def fracDigits : Nat → ℚ → List Char
  | 0, _ => []
  | n + 1, r =>
      if r = 0 then []
      else Char.ofNat (48 + (Int.floor (r * 10)).toNat) :: fracDigits n (r * 10 - Int.floor (r * 10))

/-- Models Python `str()` of a float: sign, integer part, decimal point,
    fractional digits (decimal expansion, up to 17 fractional digits; an
    integral value renders with a trailing `.0`). -/
def pyFloatStr (q : ℚ) : String :=
  (if q < 0 then "-" else "") ++ toString (Int.floor |q|) ++ "." ++
    (if (fracDigits 17 (|q| - Int.floor |q|)).isEmpty then "0"
     else String.mk (fracDigits 17 (|q| - Int.floor |q|)))

/-- Python f-string interpolation of a quantity value (float or string),
    as used in the `"<existing> + <new>"` concatenation fallback. -/
def quantityStr : Quantity → String
  | .num q => pyFloatStr q
  | .str s => s

/-- The fields of `Ingredient` (tools/recipe.py) read by the shopping-list
    module: `quantity` is stored as a string, `measure` and `foodCategory`
    are optional strings (`none` models Python `None`/missing). -/
structure Ingredient where
  food : String
  quantity : String
  measure : Option String
  foodCategory : Option String
deriving DecidableEq

/-- The fields of `Recipe` (tools/recipe.py) read by the shopping-list module:
    the base `servings` count (a Python int) and the ingredient list. -/
structure Recipe where
  servings : ℤ
  ingredients : List Ingredient
deriving DecidableEq

/-- Python runtime errors the module can raise. -/
inductive PyError where
  | zeroDivisionError
deriving DecidableEq

/-- Python division: raises `ZeroDivisionError` on a zero denominator (it never
    yields an infinite or NaN value). -/
def pyDiv (a b : ℚ) : Except PyError ℚ :=
  if b = 0 then .error .zeroDivisionError else .ok (a / b)

/-- The local `base_servings` of `calculate_optimal_servings_distribution`. -/
def base_servings (recipes : List Recipe) : List ℤ := recipes.map fun r => r.servings

/-- The local `initial_multipliers`: every recipe starts at multiplier 1.0. -/
def initial_multipliers (recipes : List Recipe) : List ℚ := recipes.map fun _ => (1 : ℚ)

/-- The local `total_servings`:
    `sum(s * m for s, m in zip(base_servings, initial_multipliers))`. -/
def total_servings (recipes : List Recipe) : ℚ :=
  (((base_servings recipes).zip (initial_multipliers recipes)).map fun sm => (sm.1 : ℚ) * sm.2).sum

/-- `calculate_optimal_servings_distribution` (tools/shopping_list.py): scale
    every multiplier up by `total_servings_needed / total_servings` when the
    base total falls short of the target, otherwise keep all multipliers 1.0. -/
def calculate_optimal_servings_distribution (recipes : List Recipe)
    (total_servings_needed : ℤ) : Except PyError (List ℚ) :=
  if total_servings recipes < (total_servings_needed : ℚ) then
    match pyDiv (total_servings_needed : ℚ) (total_servings recipes) with
    | .error e => .error e
    | .ok scale_factor => .ok ((initial_multipliers recipes).map fun m => m * scale_factor)
  else
    .ok (initial_multipliers recipes)

/-- `calculate_servings_multiplier` (tools/shopping_list.py):
    `servings_needed / recipe.servings`. -/
def calculate_servings_multiplier (recipe : Recipe) (servings_needed : ℤ) :
    Except PyError ℚ :=
  pyDiv (servings_needed : ℚ) (recipe.servings : ℚ)

/-- The per-key record stored in `self.items`. -/
structure AggregatedItem where
  food : String
  quantity : Quantity
  measure : String
  category : String
deriving DecidableEq

/-- The dictionary key: (lowercased food, measure). -/
abbrev ItemKey := String × String

/-- `ShoppingList`: owns the insertion-ordered `self.items` mapping. -/
structure ShoppingList where
  items : List (ItemKey × AggregatedItem)
deriving DecidableEq

/-- `ShoppingList.__init__`: the empty mapping. -/
def ShoppingList.empty : ShoppingList := ⟨[]⟩

/-- Dictionary lookup on the association list. -/
def lookupKey (k : ItemKey) : List (ItemKey × AggregatedItem) → Option AggregatedItem
  | [] => none
  | (k', v) :: rest => if k' = k then some v else lookupKey k rest

/-- Dictionary in-place update of the value at key `k` (keeps position). -/
def updateKey (k : ItemKey) (f : AggregatedItem → AggregatedItem) :
    List (ItemKey × AggregatedItem) → List (ItemKey × AggregatedItem)
  | [] => []
  | (k', v) :: rest => if k' = k then (k', f v) :: rest else (k', v) :: updateKey k f rest

/-- The quantity-merge branch of `add_recipe`: numeric values are added,
    otherwise the values are concatenated as `"<existing> + <new>"` using
    Python f-string interpolation. -/
def mergeQuantity (oldQ newQ : Quantity) : Quantity :=
  match oldQ, newQ with
  | .num a, .num b => .num (a + b)
  | o, n => .str (quantityStr o ++ " + " ++ quantityStr n)

/-- The scaled quantity computed inside `add_recipe`:
    `float(ingredient.quantity) * servings_multiplier`, falling back to the
    original string when conversion fails. -/
def scaledQuantity (mult : ℚ) (qs : String) : Quantity :=
  match pyFloat qs with
  | some q => .num (q * mult)
  | none => .str qs

/-- The dictionary key built in `add_recipe`:
    `(ingredient.food.lower(), ingredient.measure or "unit")`. -/
def keyOf (ing : Ingredient) : ItemKey :=
  (pyLower ing.food, pyOrDefault ing.measure "unit")

/-- The category local of `add_recipe`: `ingredient.foodCategory or "Other"`. -/
def categoryOf (ing : Ingredient) : String := pyOrDefault ing.foodCategory "Other"

/-- One loop iteration of `ShoppingList.add_recipe` (one ingredient): merge
    into the existing entry at the key, or insert a fresh entry. -/
def addIngredient (st : ShoppingList) (mult : ℚ) (ing : Ingredient) : ShoppingList :=
  match lookupKey (keyOf ing) st.items with
  | some _ =>
      ⟨updateKey (keyOf ing)
        (fun it => { it with quantity := mergeQuantity it.quantity (scaledQuantity mult ing.quantity) })
        st.items⟩
  | none =>
      ⟨st.items ++
        [((keyOf ing),
          ⟨(keyOf ing).1, scaledQuantity mult ing.quantity, (keyOf ing).2, categoryOf ing⟩)]⟩

/-- `ShoppingList.add_recipe`: fold every ingredient of the recipe into the
    mapping at the given servings multiplier. -/
def add_recipe (st : ShoppingList) (recipe : Recipe) (servings_multiplier : ℚ) : ShoppingList :=
  recipe.ingredients.foldl (fun s ing => addIngredient s servings_multiplier ing) st

/-- `ShoppingList.clear`: reset the mapping to empty. -/
def ShoppingList.clear (_st : ShoppingList) : ShoppingList := ⟨[]⟩

/-- Round to nearest with ties to even, as Python's fixed-point formatting
    does on the value being formatted. -/
def roundHalfEven (x : ℚ) : ℤ :=
  if x - Int.floor x < 1 / 2 then Int.floor x
  else if 1 / 2 < x - Int.floor x then Int.floor x + 1
  else if Int.floor x % 2 = 0 then Int.floor x else Int.floor x + 1

/-- Renders `n` hundredths as a fixed two-decimal numeral (`250 → "2.50"`). -/
def hundredthsStr (n : Nat) : String :=
  toString (n / 100) ++ "." ++ (if n % 100 < 10 then "0" else "") ++ toString (n % 100)

/-- Python `s.rstrip(c)`: drop all trailing occurrences of `c`. -/
def rstripChar (c : Char) (s : String) : String :=
  String.mk ((s.data.reverse.dropWhile (fun a => a = c)).reverse)

/-- Python `f"{q:.2f}".rstrip('0').rstrip('.')` on a float value `q`: format
    to two decimal places, then strip trailing zeros and a trailing point. -/
def pyFormat2 (q : ℚ) : String :=
  (if q < 0 then "-" else "") ++
    rstripChar '.' (rstripChar '0' (hundredthsStr (roundHalfEven (q * 100)).natAbs))

/-- Python `str.title()` (ASCII model): the first letter of every alphabetic
    run is uppercased, subsequent letters are lowercased. -/
def pyTitleAux : Bool → List Char → List Char
  | _, [] => []
  | prev, c :: rest =>
      if c.isAlpha then (if prev then c.toLower else c.toUpper) :: pyTitleAux true rest
      else c :: pyTitleAux false rest

/-- Python `str.title()` on a string. -/
def pyTitle (s : String) : String := String.mk (pyTitleAux false s.data)

/-- One rendered row of the consolidated list. -/
structure DisplayItem where
  food : String
  quantity : String
  measure : String
  category : String
deriving DecidableEq

/-- The per-item rendering step of `get_consolidated_list`: title-case the food
    name; format a float quantity with `pyFormat2`, keep a string quantity
    as-is (`str()` of a string is itself). -/
def renderItem (it : AggregatedItem) : DisplayItem :=
  { food := pyTitle it.food
  , quantity :=
      match it.quantity with
      | .num q => pyFormat2 q
      | .str s => s
  , measure := it.measure
  , category := it.category }

/-- Code-point comparison of char lists: Python's `<=` on strings. -/
def strLeB : List Char → List Char → Bool
  | [], _ => true
  | _ :: _, [] => false
  | a :: as, b :: bs =>
      if a.toNat < b.toNat then true
      else if b.toNat < a.toNat then false
      else strLeB as bs

/-- Python's sort-key comparison `(category, food) <= (category', food')`:
    lexicographic on the tuple, code-point order on each string — category
    first, food second. -/
def displayLe (x y : DisplayItem) : Prop :=
  (if x.category.data = y.category.data then strLeB x.food.data y.food.data
   else strLeB x.category.data y.category.data) = true

instance : DecidableRel displayLe := fun x y =>
  inferInstanceAs (Decidable (_ = true))

/-- `ShoppingList.get_consolidated_list`: render every stored item, then sort
    by `(category, food)`.  Python's stable `sorted` is modelled by the stable
    insertion sort. -/
def get_consolidated_list (st : ShoppingList) : List DisplayItem :=
  List.insertionSort displayLe (st.items.map fun kv => renderItem kv.2)

/-- The keys of the mapping are pairwise distinct (each key holds exactly one
    `AggregatedItem`). -/
def NodupKeys (st : ShoppingList) : Prop := (st.items.map Prod.fst).Nodup

/-- Run a whole planning sequence: fold `add_recipe` calls over a fresh list. -/
def runPlan (ops : List (Recipe × ℚ)) : ShoppingList :=
  ops.foldl (fun s p => add_recipe s p.1 p.2) ShoppingList.empty

/-- Total base servings of a recipe list, as a rational. -/
def totalBaseServings (recipes : List Recipe) : ℚ :=
  (recipes.map fun r => (r.servings : ℚ)).sum

instance : DecidablePred NodupKeys := fun st =>
  inferInstanceAs (Decidable ((st.items.map Prod.fst).Nodup))

/- Concrete inputs used by the witness theorems below. -/

/-- A later contribution to the flour/cups key, carrying different category
    metadata ("Baking") and a non-numeric quantity. -/
def ingPinch : Ingredient := ⟨"flour", "a pinch", some "cups", some "Baking"⟩

/-- The aggregated entry the flour/cups key already holds. -/
def itemFlour : AggregatedItem := ⟨"flour", .str "2 cups-worth", "cups", "Pantry"⟩

/-- A shopping list holding one flour/cups entry. -/
def stFlour : ShoppingList := ⟨[(("flour", "cups"), itemFlour)]⟩

/-- An ingredient whose measure differs from `ingPinch` only in unit. -/
def ingFlourG : Ingredient := ⟨"flour", "1", some "g", none⟩

/-- An unmeasured, unparseable-quantity ingredient. -/
def ingSalt : Ingredient := ⟨"Salt", "to taste", none, some "Spices"⟩

/-- A recipe contributing `ingSalt`. -/
def recipeSalt : Recipe := ⟨2, [ingSalt]⟩

/-- Flour measured in `"Cup"` (capitalised unit). -/
def ingCupUpper : Ingredient := ⟨"flour", "two", some "Cup", none⟩

/-- Flour measured in `"cup"` (lower-case unit). -/
def ingCupLower : Ingredient := ⟨"flour", "two", some "cup", none⟩

/-- A recipe contributing the same food under `"Cup"` and `"cup"`. -/
def recipeCupCase : Recipe := ⟨1, [ingCupUpper, ingCupLower]⟩

/-! ### Helper lemmas about the mapping -/

lemma lookupKey_updateKey_self (k : ItemKey) (f : AggregatedItem → AggregatedItem) :
    ∀ l, lookupKey k (updateKey k f l) = (lookupKey k l).map f := by
  intro l
  induction l with
  | nil => simp [lookupKey, updateKey]
  | cons kv rest ih =>
      obtain ⟨k', v⟩ := kv
      by_cases h : k' = k <;> simp [lookupKey, updateKey, h, ih]

lemma lookupKey_updateKey_ne (k k' : ItemKey) (hne : k' ≠ k)
    (f : AggregatedItem → AggregatedItem) :
    ∀ l, lookupKey k' (updateKey k f l) = lookupKey k' l := by
  intro l
  induction l with
  | nil => simp [updateKey]
  | cons kv rest ih =>
      obtain ⟨k₀, v⟩ := kv
      by_cases h : k₀ = k
      · subst h
        simp [updateKey, lookupKey, Ne.symm hne]
      · simp [updateKey, lookupKey, h, ih]

lemma lookupKey_append_of_none (k : ItemKey) (l₁ l₂ : List (ItemKey × AggregatedItem))
    (h : lookupKey k l₁ = none) : lookupKey k (l₁ ++ l₂) = lookupKey k l₂ := by
  induction l₁ with
  | nil => simp
  | cons kv rest ih =>
      obtain ⟨k', v⟩ := kv
      by_cases hk : k' = k
      · simp [lookupKey, hk] at h
      · simp only [lookupKey, hk, if_false, List.cons_append] at h ⊢
        exact ih h

lemma lookupKey_append_of_some (k : ItemKey) (l₁ l₂ : List (ItemKey × AggregatedItem))
    (v : AggregatedItem) (h : lookupKey k l₁ = some v) :
    lookupKey k (l₁ ++ l₂) = some v := by
  induction l₁ with
  | nil => simp [lookupKey] at h
  | cons kv rest ih =>
      obtain ⟨k', w⟩ := kv
      by_cases hk : k' = k
      · simp [lookupKey, hk] at h ⊢; exact h
      · simp only [lookupKey, hk, if_false, List.cons_append] at h ⊢
        exact ih h

lemma lookupKey_eq_none_iff (k : ItemKey) :
    ∀ l, lookupKey k l = none ↔ k ∉ l.map Prod.fst := by
  intro l
  induction l with
  | nil => simp [lookupKey]
  | cons kv rest ih =>
      obtain ⟨k', v⟩ := kv
      by_cases h : k' = k
      · subst h
        simp [lookupKey]
      · have hkk : ¬ (k = k') := fun he => h he.symm
        simp only [lookupKey, h, if_false, List.map_cons, List.mem_cons]
        rw [ih]
        tauto

lemma keys_updateKey (k : ItemKey) (f : AggregatedItem → AggregatedItem) :
    ∀ l, (updateKey k f l).map Prod.fst = l.map Prod.fst := by
  intro l
  induction l with
  | nil => rfl
  | cons kv rest ih =>
      obtain ⟨k', v⟩ := kv
      by_cases h : k' = k <;> simp [updateKey, h, ih]

lemma addIngredient_lookup_some (st : ShoppingList) (mult : ℚ) (ing : Ingredient)
    (it : AggregatedItem) (h : lookupKey (keyOf ing) st.items = some it) :
    lookupKey (keyOf ing) (addIngredient st mult ing).items =
      some { it with quantity := mergeQuantity it.quantity (scaledQuantity mult ing.quantity) } := by
  unfold addIngredient
  rw [h]
  simp [lookupKey_updateKey_self, h]

lemma addIngredient_lookup_none (st : ShoppingList) (mult : ℚ) (ing : Ingredient)
    (h : lookupKey (keyOf ing) st.items = none) :
    lookupKey (keyOf ing) (addIngredient st mult ing).items =
      some ⟨(keyOf ing).1, scaledQuantity mult ing.quantity, (keyOf ing).2, categoryOf ing⟩ := by
  unfold addIngredient
  rw [h]
  simp [lookupKey_append_of_none _ _ _ h, lookupKey]

lemma addIngredient_lookup_ne (st : ShoppingList) (mult : ℚ) (ing : Ingredient)
    (k : ItemKey) (hne : k ≠ keyOf ing) :
    lookupKey k (addIngredient st mult ing).items = lookupKey k st.items := by
  unfold addIngredient
  cases hl : lookupKey (keyOf ing) st.items with
  | some it => simpa using lookupKey_updateKey_ne _ _ hne _ st.items
  | none =>
      cases hk : lookupKey k st.items with
      | some v => simpa using lookupKey_append_of_some _ _ _ _ hk
      | none =>
          have h2 : keyOf ing ≠ k := fun he => hne he.symm
          simp only []
          rw [lookupKey_append_of_none _ _ _ hk]
          simp [lookupKey, h2]

lemma nodupKeys_addIngredient (st : ShoppingList) (mult : ℚ) (ing : Ingredient)
    (h : NodupKeys st) : NodupKeys (addIngredient st mult ing) := by
  unfold NodupKeys addIngredient at *
  cases hl : lookupKey (keyOf ing) st.items with
  | some it => simpa [keys_updateKey] using h
  | none =>
      have hk : keyOf ing ∉ st.items.map Prod.fst := (lookupKey_eq_none_iff _ _).mp hl
      simp [List.nodup_append, h, hk]

lemma nodupKeys_add_recipe (r : Recipe) (m : ℚ) :
    ∀ st, NodupKeys st → NodupKeys (add_recipe st r m) := by
  unfold add_recipe
  have key : ∀ (l : List Ingredient) (st : ShoppingList), NodupKeys st →
      NodupKeys (l.foldl (fun s ing => addIngredient s m ing) st) := by
    intro l
    induction l with
    | nil => intro st h; exact h
    | cons i il ih => intro st h; exact ih _ (nodupKeys_addIngredient _ _ _ h)
  intro st h
  exact key r.ingredients st h

lemma nodupKeys_runPlan (ops : List (Recipe × ℚ)) : NodupKeys (runPlan ops) := by
  unfold runPlan
  have key : ∀ (l : List (Recipe × ℚ)) (st : ShoppingList), NodupKeys st →
      NodupKeys (l.foldl (fun s p => add_recipe s p.1 p.2) st) := by
    intro l
    induction l with
    | nil => intro st h; exact h
    | cons p ps ih => intro st h; exact ih _ (nodupKeys_add_recipe _ _ _ h)
  exact key ops ShoppingList.empty (by simp [NodupKeys, ShoppingList.empty])

/-! ### Helper lemmas about the distributor -/

lemma total_servings_eq (recipes : List Recipe) :
    total_servings recipes = totalBaseServings recipes := by
  induction recipes with
  | nil => simp [total_servings, base_servings, initial_multipliers, totalBaseServings]
  | cons r rs ih =>
      simp only [total_servings, base_servings, initial_multipliers, totalBaseServings,
        List.map_cons, List.zip_cons_cons, List.sum_cons, mul_one] at ih ⊢
      rw [ih]

lemma sum_zip_const (recipes : List Recipe) (c : ℚ) :
    ((recipes.zip (recipes.map fun _ => c)).map fun p => (p.1.servings : ℚ) * p.2).sum =
      totalBaseServings recipes * c := by
  induction recipes with
  | nil => simp [totalBaseServings]
  | cons r rs ih =>
      simp only [totalBaseServings, List.map_cons, List.zip_cons_cons, List.sum_cons] at ih ⊢
      rw [ih]
      ring

/-! ### Helper lemmas about the sort order -/

lemma char_eq_of_toNat_eq {a b : Char} (h : a.toNat = b.toNat) : a = b := by
  rw [← Char.ofNat_toNat a, ← Char.ofNat_toNat b, h]

lemma strLeB_total : ∀ as bs, strLeB as bs = true ∨ strLeB bs as = true := by
  intro as
  induction as with
  | nil => intro bs; left; rfl
  | cons a as ih =>
      intro bs
      cases bs with
      | nil => right; rfl
      | cons b bs =>
          by_cases h1 : a.toNat < b.toNat
          · left; simp [strLeB, h1]
          · by_cases h2 : b.toNat < a.toNat
            · right; simp [strLeB, h2]
            · rcases ih bs with h | h
              · left; simp [strLeB, h1, h2, h]
              · right; simp [strLeB, h1, h2, h]

lemma strLeB_trans : ∀ as bs cs, strLeB as bs = true → strLeB bs cs = true →
    strLeB as cs = true := by
  intro as
  induction as with
  | nil => intro bs cs h1 h2; rfl
  | cons a as ih =>
      intro bs cs h1 h2
      cases bs with
      | nil => simp [strLeB] at h1
      | cons b bs =>
          cases cs with
          | nil => simp [strLeB] at h2
          | cons c cs =>
              simp only [strLeB] at h1 h2 ⊢
              split_ifs at h1 h2 ⊢ <;>
                first
                | rfl
                | omega
                | exact ih bs cs h1 h2
                | simp_all

lemma strLeB_antisymm : ∀ as bs, strLeB as bs = true → strLeB bs as = true → as = bs := by
  intro as
  induction as with
  | nil =>
      intro bs h1 h2
      cases bs with
      | nil => rfl
      | cons b bs => simp [strLeB] at h2
  | cons a as ih =>
      intro bs h1 h2
      cases bs with
      | nil => simp [strLeB] at h1
      | cons b bs =>
          simp only [strLeB] at h1 h2
          by_cases hab : a.toNat < b.toNat
          · rw [if_neg (by omega : ¬ b.toNat < a.toNat), if_pos hab] at h2
            exact absurd h2 (by simp)
          · by_cases hba : b.toNat < a.toNat
            · rw [if_neg hab, if_pos hba] at h1
              exact absurd h1 (by simp)
            · rw [if_neg hab, if_neg hba] at h1
              rw [if_neg hba, if_neg hab] at h2
              have hc : a = b := char_eq_of_toNat_eq (by omega)
              rw [hc, ih bs h1 h2]

instance : IsTotal DisplayItem displayLe := by
  constructor
  intro x y
  unfold displayLe
  by_cases h : x.category.data = y.category.data
  · rw [if_pos h, if_pos h.symm]
    exact strLeB_total x.food.data y.food.data
  · rw [if_neg h, if_neg (fun he => h he.symm)]
    exact strLeB_total x.category.data y.category.data

instance : IsTrans DisplayItem displayLe := by
  constructor
  intro x y z h1 h2
  unfold displayLe at *
  by_cases hxy : x.category.data = y.category.data <;>
    by_cases hyz : y.category.data = z.category.data
  · have hxz : x.category.data = z.category.data := hxy.trans hyz
    rw [if_pos hxy] at h1
    rw [if_pos hyz] at h2
    rw [if_pos hxz]
    exact strLeB_trans _ _ _ h1 h2
  · have hxz : ¬ (x.category.data = z.category.data) := fun he => hyz (hxy.symm.trans he)
    rw [if_neg hyz] at h2
    rw [if_neg hxz, hxy]
    exact h2
  · have hxz : ¬ (x.category.data = z.category.data) := fun he => hxy (he.trans hyz.symm)
    rw [if_neg hxy] at h1
    rw [if_neg hxz, ← hyz]
    exact h1
  · rw [if_neg hxy] at h1
    rw [if_neg hyz] at h2
    by_cases hxz : x.category.data = z.category.data
    · exfalso
      rw [hxz] at h1
      exact hxy (hxz.trans (strLeB_antisymm _ _ h2 h1).symm)
    · rw [if_neg hxz]
      exact strLeB_trans _ _ _ h1 h2

/-! ### Helper lemmas about quantity formatting -/

lemma roundHalfEven_of_intCast (n : ℤ) : roundHalfEven (n : ℚ) = n := by
  unfold roundHalfEven
  rw [Int.floor_intCast]
  norm_num

lemma pyFormat2_half : pyFormat2 (5 / 2 : ℚ) = "2.5" := by
  have hx : ((5 / 2 : ℚ) * 100) = ((250 : ℤ) : ℚ) := by norm_num
  have h1 : roundHalfEven ((5 / 2 : ℚ) * 100) = 250 := by
    rw [hx, roundHalfEven_of_intCast]
  have h2 : ¬ ((5 / 2 : ℚ) < 0) := by norm_num
  unfold pyFormat2
  rw [h1, if_neg h2]
  decide

lemma pyFormat2_three : pyFormat2 (3 : ℚ) = "3" := by
  have hx : ((3 : ℚ) * 100) = ((300 : ℤ) : ℚ) := by norm_num
  have h1 : roundHalfEven ((3 : ℚ) * 100) = 300 := by
    rw [hx, roundHalfEven_of_intCast]
  have h2 : ¬ ((3 : ℚ) < 0) := by norm_num
  unfold pyFormat2
  rw [h1, if_neg h2]
  decide

/-! ### Claim theorems -/

/-- C1: for every non-empty recipe list whose total base servings is positive,
`calculate_optimal_servings_distribution` returns, when the total is strictly
below the target, one multiplier per recipe in input order, each equal to
`target / total`, making the servings-weighted sum exactly the target; and
when the total is at least the target, a multiplier of exactly 1.0 per
recipe. -/
theorem servings_distribution_correct (recipes : List Recipe) (target : ℤ)
    (hne : recipes ≠ []) (hpos : 0 < totalBaseServings recipes) :
    (totalBaseServings recipes < (target : ℚ) →
      calculate_optimal_servings_distribution recipes target =
        .ok (recipes.map fun _ => (target : ℚ) / totalBaseServings recipes) ∧
      ∀ ms, calculate_optimal_servings_distribution recipes target = .ok ms →
        ((recipes.zip ms).map fun p => (p.1.servings : ℚ) * p.2).sum = (target : ℚ)) ∧
    ((target : ℚ) ≤ totalBaseServings recipes →
      calculate_optimal_servings_distribution recipes target =
        .ok (recipes.map fun _ => (1 : ℚ))) := by
  have hS : totalBaseServings recipes ≠ 0 := ne_of_gt hpos
  constructor
  · intro hlt
    have hres : calculate_optimal_servings_distribution recipes target =
        .ok (recipes.map fun _ => (target : ℚ) / totalBaseServings recipes) := by
      unfold calculate_optimal_servings_distribution
      rw [total_servings_eq, if_pos hlt]
      unfold pyDiv
      rw [if_neg hS]
      simp [initial_multipliers, List.map_map, Function.comp]
    refine ⟨hres, ?_⟩
    intro ms hms
    rw [hres] at hms
    have hms2 : recipes.map (fun _ => (target : ℚ) / totalBaseServings recipes) = ms := by
      simpa using hms
    rw [← hms2, sum_zip_const, mul_comm]
    exact div_mul_cancel₀ _ hS
  · intro hle
    unfold calculate_optimal_servings_distribution
    rw [total_servings_eq, if_neg (not_lt.mpr hle)]
    rfl

/-- Witness for C1 at a concrete input: recipes with servings 4 and 6 (total
10); target 20 gives multipliers [2, 2], target 5 gives [1, 1]. -/
theorem servings_distribution_correct_witness :
    calculate_optimal_servings_distribution [⟨4, []⟩, ⟨6, []⟩] 20 = .ok [(2 : ℚ), 2] ∧
    calculate_optimal_servings_distribution [⟨4, []⟩, ⟨6, []⟩] 5 = .ok [(1 : ℚ), 1] := by
  have hpos : (0 : ℚ) < totalBaseServings [⟨4, []⟩, ⟨6, []⟩] := by
    norm_num [totalBaseServings]
  have h := servings_distribution_correct [⟨4, []⟩, ⟨6, []⟩] 20 (by simp) hpos
  have h2 := servings_distribution_correct [⟨4, []⟩, ⟨6, []⟩] 5 (by simp) hpos
  constructor
  · have h3 := (h.1 (by norm_num [totalBaseServings])).1
    rw [h3]
    norm_num [totalBaseServings]
  · have h4 := h2.2 (by norm_num [totalBaseServings])
    rw [h4]
    rfl

/-- C10: for every recipe list with positive total base servings and every
target, the distributor returns the same multiplier for every recipe, and
that common multiplier is at least 1.0. -/
theorem multipliers_uniform_ge_one (recipes : List Recipe) (target : ℤ)
    (hpos : 0 < totalBaseServings recipes) :
    ∃ c : ℚ, 1 ≤ c ∧
      calculate_optimal_servings_distribution recipes target =
        .ok (recipes.map fun _ => c) := by
  have hS : totalBaseServings recipes ≠ 0 := ne_of_gt hpos
  by_cases h : totalBaseServings recipes < (target : ℚ)
  · refine ⟨(target : ℚ) / totalBaseServings recipes, ?_, ?_⟩
    · rw [one_le_div hpos]
      exact le_of_lt h
    · unfold calculate_optimal_servings_distribution
      rw [total_servings_eq, if_pos h]
      unfold pyDiv
      rw [if_neg hS]
      simp [initial_multipliers, List.map_map, Function.comp]
  · refine ⟨1, le_refl 1, ?_⟩
    unfold calculate_optimal_servings_distribution
    rw [total_servings_eq, if_neg h]
    rfl

/-- Witness for C10 at a concrete input: servings 4 and 6, target 5. -/
theorem multipliers_uniform_ge_one_witness :
    ∃ c : ℚ, 1 ≤ c ∧
      calculate_optimal_servings_distribution [⟨4, []⟩, ⟨6, []⟩] 5 =
        .ok ([(⟨4, []⟩ : Recipe), ⟨6, []⟩].map fun _ => c) :=
  multipliers_uniform_ge_one [⟨4, []⟩, ⟨6, []⟩] 5 (by norm_num [totalBaseServings])

/-- C4: a recipe list with a zero-serving recipe and zero total base servings
makes the distributor fail with a ZeroDivisionError for every positive
target, rather than produce an infinite or NaN multiplier; and
`calculate_servings_multiplier` fails the same way on any zero-serving
recipe. -/
theorem zero_servings_rejected (recipes : List Recipe) (target : ℤ) (r : Recipe)
    (hmem : r ∈ recipes) (hzero : r.servings = 0)
    (htotal : totalBaseServings recipes = 0) (hpos : 0 < target)
    (r2 : Recipe) (n : ℤ) (hzero2 : r2.servings = 0) :
    calculate_optimal_servings_distribution recipes target =
      .error .zeroDivisionError ∧
    calculate_servings_multiplier r2 n = .error .zeroDivisionError := by
  constructor
  · unfold calculate_optimal_servings_distribution
    rw [total_servings_eq, htotal]
    have hlt : (0 : ℚ) < (target : ℚ) := by exact_mod_cast hpos
    rw [if_pos hlt]
    unfold pyDiv
    rw [if_pos rfl]
  · unfold calculate_servings_multiplier pyDiv
    rw [hzero2]
    norm_num

/-- Witness for C4 at a concrete input: one zero-serving recipe, target 5. -/
theorem zero_servings_rejected_witness :
    calculate_optimal_servings_distribution [⟨0, []⟩] 5 = .error .zeroDivisionError ∧
    calculate_servings_multiplier ⟨0, []⟩ 3 = .error .zeroDivisionError :=
  zero_servings_rejected [⟨0, []⟩] 5 ⟨0, []⟩ (by simp) rfl
    (by norm_num [totalBaseServings]) (by norm_num) ⟨0, []⟩ 3 rfl

/-- C2: contributions merge exactly when their keys (lowercased food,
defaulted measure) coincide: a different key is left untouched, an existing
key gets its single entry's quantity merged (numeric quantities are added),
an absent key gets one fresh entry, different units give different keys, and
every reachable state maps each key to exactly one entry. -/
theorem aggregation_key_merge (ops : List (Recipe × ℚ)) (st : ShoppingList)
    (mult : ℚ) (ing : Ingredient) (k : ItemKey) (it : AggregatedItem) :
    NodupKeys (runPlan ops) ∧
    (k ≠ keyOf ing →
      lookupKey k (addIngredient st mult ing).items = lookupKey k st.items) ∧
    (lookupKey (keyOf ing) st.items = some it →
      lookupKey (keyOf ing) (addIngredient st mult ing).items =
        some { it with
          quantity := mergeQuantity it.quantity (scaledQuantity mult ing.quantity) }) ∧
    (lookupKey (keyOf ing) st.items = none →
      lookupKey (keyOf ing) (addIngredient st mult ing).items =
        some ⟨(keyOf ing).1, scaledQuantity mult ing.quantity, (keyOf ing).2,
          categoryOf ing⟩) ∧
    (∀ a b : ℚ, mergeQuantity (.num a) (.num b) = .num (a + b)) ∧
    (∀ ing2 : Ingredient,
      pyOrDefault ing.measure "unit" ≠ pyOrDefault ing2.measure "unit" →
      keyOf ing ≠ keyOf ing2) :=
  ⟨nodupKeys_runPlan ops,
   addIngredient_lookup_ne st mult ing k,
   addIngredient_lookup_some st mult ing it,
   addIngredient_lookup_none st mult ing,
   fun _ _ => rfl,
   fun ing2 hm he => hm (congrArg Prod.snd he)⟩

/-- Witness for C2 at concrete inputs: a flour/cups entry is merged into, a
flour/g key stays untouched and distinct, a fresh salt/unit entry is
inserted, and numeric quantities add. -/
theorem aggregation_key_merge_witness :
    NodupKeys (runPlan [(recipeSalt, 1), (recipeSalt, 1)]) ∧
    ((("flour", "g") : ItemKey) ≠ keyOf ingPinch ∧
      lookupKey ("flour", "g") (addIngredient stFlour 1 ingPinch).items =
        lookupKey ("flour", "g") stFlour.items) ∧
    (lookupKey (keyOf ingPinch) stFlour.items = some itemFlour ∧
      lookupKey (keyOf ingPinch) (addIngredient stFlour 1 ingPinch).items =
        some { itemFlour with
          quantity := mergeQuantity itemFlour.quantity
            (scaledQuantity 1 ingPinch.quantity) }) ∧
    (lookupKey (keyOf ingSalt) stFlour.items = none ∧
      lookupKey (keyOf ingSalt) (addIngredient stFlour 1 ingSalt).items =
        some ⟨(keyOf ingSalt).1, scaledQuantity 1 ingSalt.quantity,
          (keyOf ingSalt).2, categoryOf ingSalt⟩) ∧
    mergeQuantity (.num 2) (.num 3) = .num (2 + 3) ∧
    keyOf ingPinch ≠ keyOf ingFlourG := by
  have h := aggregation_key_merge [(recipeSalt, 1), (recipeSalt, 1)] stFlour 1
    ingPinch ("flour", "g") itemFlour
  refine ⟨h.1, ⟨by decide, h.2.1 (by decide)⟩, ⟨by decide, h.2.2.1 (by decide)⟩,
    ⟨by decide, ?_⟩, h.2.2.2.2.1 2 3, h.2.2.2.2.2 ingFlourG (by decide)⟩
  exact (aggregation_key_merge [] stFlour 1 ingSalt ("x", "y") itemFlour).2.2.2.1
    (by decide)

/-- C3 counterexample: the measure is not case-folded in the merge key —
`"Cup"` and `"cup"` produce two distinct keys, so the two flour
contributions are not merged (the claim would require one entry). -/
theorem unit_casefold_counterexample :
    keyOf ingCupUpper ≠ keyOf ingCupLower ∧
    (add_recipe ShoppingList.empty recipeCupCase 1).items.map Prod.fst =
      [("flour", "Cup"), ("flour", "cup")] :=
  ⟨by decide, by decide⟩

/-- C3 (amended): the unit component of the merge key is the ingredient's
measure taken verbatim (no case-folding) when present and non-empty, and
defaults to the literal "unit" when the measure is missing, null, or the
empty string; two contributions whose unit components differ (in particular
only by letter case) therefore map to distinct keys. -/
theorem unit_key_verbatim (ing ing2 : Ingredient) (s : String) :
    (ing.measure = none → (keyOf ing).2 = "unit") ∧
    (ing.measure = some "" → (keyOf ing).2 = "unit") ∧
    (ing.measure = some s → s ≠ "" → (keyOf ing).2 = s) ∧
    ((keyOf ing).2 ≠ (keyOf ing2).2 → keyOf ing ≠ keyOf ing2) := by
  refine ⟨?_, ?_, ?_, ?_⟩
  · intro h
    simp [keyOf, pyOrDefault, h]
  · intro h
    simp [keyOf, pyOrDefault, h]
  · intro h hs
    simp [keyOf, pyOrDefault, h, hs]
  · intro hm he
    exact hm (congrArg Prod.snd he)

/-- Witness for the amended C3 at concrete inputs. -/
theorem unit_key_verbatim_witness :
    (keyOf ⟨"x", "1", none, none⟩).2 = "unit" ∧
    (keyOf ⟨"x", "1", some "", none⟩).2 = "unit" ∧
    (keyOf ingCupUpper).2 = "Cup" ∧
    keyOf ingCupUpper ≠ keyOf ingCupLower :=
  ⟨(unit_key_verbatim ⟨"x", "1", none, none⟩ ingCupLower "").1 rfl,
   (unit_key_verbatim ⟨"x", "1", some "", none⟩ ingCupLower "").2.1 rfl,
   (unit_key_verbatim ingCupUpper ingCupLower "Cup").2.2.1 rfl (by decide),
   (unit_key_verbatim ingCupUpper ingCupLower "Cup").2.2.2 (by decide)⟩

/-- C5: an unparseable quantity string never fails `add_recipe`: it is kept
verbatim with the multiplier unapplied, a fresh entry stores it as-is, and
when it meets another contribution at the same key the merged value is the
concatenation "<existing> + <new>". -/
theorem nonnumeric_quantity_preserved (mult : ℚ) (qs : String)
    (hq : pyFloat qs = none) (oldQ newQ : Quantity) (s2 : String) :
    scaledQuantity mult qs = .str qs ∧
    mergeQuantity oldQ (.str qs) = .str (quantityStr oldQ ++ " + " ++ qs) ∧
    mergeQuantity (.str s2) newQ = .str (s2 ++ " + " ++ quantityStr newQ) ∧
    (∀ (st : ShoppingList) (ing : Ingredient), ing.quantity = qs →
      lookupKey (keyOf ing) st.items = none →
      lookupKey (keyOf ing) (addIngredient st mult ing).items =
        some ⟨(keyOf ing).1, .str qs, (keyOf ing).2, categoryOf ing⟩) := by
  have h1 : scaledQuantity mult qs = .str qs := by
    unfold scaledQuantity
    rw [hq]
  refine ⟨h1, ?_, ?_, ?_⟩
  · cases oldQ <;> rfl
  · cases newQ <;> rfl
  · intro st ing hing hnone
    rw [addIngredient_lookup_none st mult ing hnone, hing, h1]

/-- Witness for C5 at a concrete input: quantity "to taste". -/
theorem nonnumeric_quantity_preserved_witness :
    pyFloat "to taste" = none ∧
    scaledQuantity 1 "to taste" = .str "to taste" ∧
    mergeQuantity (.str "1 pinch") (.str "to taste") = .str "1 pinch + to taste" ∧
    mergeQuantity (.str "1 pinch") (.str "extra") = .str "1 pinch + extra" ∧
    lookupKey (keyOf ingSalt) (addIngredient stFlour 1 ingSalt).items =
      some ⟨(keyOf ingSalt).1, .str "to taste", (keyOf ingSalt).2, categoryOf ingSalt⟩ := by
  have h := nonnumeric_quantity_preserved 1 "to taste" (by decide)
    (.str "1 pinch") (.str "extra") "1 pinch"
  exact ⟨by decide, h.1, h.2.1, h.2.2.1, h.2.2.2 stFlour ingSalt rfl (by decide)⟩

/-- C6: a later contribution under an existing key changes only the
accumulated quantity: the stored food, measure and category remain those of
the first recipe that introduced the key, whatever metadata the later
contribution carries. -/
theorem first_recipe_metadata_kept (st : ShoppingList) (mult : ℚ)
    (ing : Ingredient) (it : AggregatedItem)
    (h : lookupKey (keyOf ing) st.items = some it) :
    ∃ it2, lookupKey (keyOf ing) (addIngredient st mult ing).items = some it2 ∧
      it2.category = it.category ∧ it2.measure = it.measure ∧ it2.food = it.food ∧
      it2.quantity = mergeQuantity it.quantity (scaledQuantity mult ing.quantity) :=
  ⟨_, addIngredient_lookup_some st mult ing it h, rfl, rfl, rfl, rfl⟩

/-- Witness for C6 at a concrete input: the later flour contribution carries
category "Baking", but the stored entry keeps the first-seen "Pantry". -/
theorem first_recipe_metadata_kept_witness :
    categoryOf ingPinch = "Baking" ∧
    ∃ it2, lookupKey (keyOf ingPinch) (addIngredient stFlour 1 ingPinch).items =
        some it2 ∧
      it2.category = "Pantry" ∧ it2.measure = "cups" ∧ it2.food = "flour" ∧
      it2.quantity = mergeQuantity itemFlour.quantity
        (scaledQuantity 1 ingPinch.quantity) := by
  obtain ⟨it2, h1, h2, h3, h4, h5⟩ :=
    first_recipe_metadata_kept stFlour 1 ingPinch itemFlour (by decide)
  exact ⟨rfl, it2, h1, h2, h3, h4, h5⟩

/-- C7: every row of the consolidated list renders some stored item: the food
name title-cased, a numeric quantity through the two-decimal
strip-trailing-zeros format (2.50 renders "2.5", 3.00 renders "3"), and a
non-numeric quantity as-is. -/
theorem formatter_display (st : ShoppingList) (d : DisplayItem)
    (hd : d ∈ get_consolidated_list st) :
    (∃ kv ∈ st.items, d = renderItem kv.2 ∧
      d.food = pyTitle kv.2.food ∧
      (∀ q : ℚ, kv.2.quantity = .num q → d.quantity = pyFormat2 q) ∧
      (∀ s : String, kv.2.quantity = .str s → d.quantity = s)) ∧
    pyFormat2 (5 / 2 : ℚ) = "2.5" ∧ pyFormat2 (3 : ℚ) = "3" := by
  refine ⟨?_, pyFormat2_half, pyFormat2_three⟩
  unfold get_consolidated_list at hd
  rw [List.mem_insertionSort] at hd
  obtain ⟨kv, hkv, hren⟩ := List.mem_map.mp hd
  refine ⟨kv, hkv, hren.symm, ?_, ?_, ?_⟩
  · rw [← hren]
    rfl
  · intro q hq
    rw [← hren]
    simp [renderItem, hq]
  · intro s hs
    rw [← hren]
    simp [renderItem, hs]

/-- Witness for C7 at a concrete input: the rendered flour row. -/
theorem formatter_display_witness :
    (∃ kv ∈ stFlour.items, renderItem itemFlour = renderItem kv.2 ∧
      (renderItem itemFlour).food = pyTitle kv.2.food ∧
      (∀ q : ℚ, kv.2.quantity = .num q → (renderItem itemFlour).quantity = pyFormat2 q) ∧
      (∀ s : String, kv.2.quantity = .str s → (renderItem itemFlour).quantity = s)) ∧
    pyFormat2 (5 / 2 : ℚ) = "2.5" ∧ pyFormat2 (3 : ℚ) = "3" :=
  formatter_display stFlour (renderItem itemFlour) (by decide)

/-- C8: the consolidated list is sorted primarily by category and secondarily
by food name (code-point lexicographic order), and is a permutation of the
rendered stored items. -/
theorem consolidated_list_sorted (st : ShoppingList) :
    List.Sorted displayLe (get_consolidated_list st) ∧
    List.Perm (get_consolidated_list st) (st.items.map fun kv => renderItem kv.2) :=
  ⟨List.sorted_insertionSort displayLe _, List.perm_insertionSort displayLe _⟩

/-- C9: clear() puts the list back in the freshly-constructed empty state: the
consolidated list is then empty and repopulation behaves exactly as on a
fresh instance. -/
theorem clear_resets (st : ShoppingList) (r : Recipe) (m : ℚ) :
    ShoppingList.clear st = ShoppingList.empty ∧
    get_consolidated_list (ShoppingList.clear st) = [] ∧
    add_recipe (ShoppingList.clear st) r m = add_recipe ShoppingList.empty r m :=
  ⟨rfl, rfl, rfl⟩

end MealPlanner
